import Mathlib

/-!
Shallow embedding of the notification engine of the AIcropyield repository
(`notification-service.ts`): the canonical `Notification` record, the
per-channel delivery dispatcher, the bounded notification store with its
query/mutation API, the price-alert normalizer and the analytics aggregator.

Modelling conventions:
* JS `Date` instants are integers (milliseconds since epoch).
* The browser side effects that cannot fail in the source (`console.log`,
  constructing an OS-level `new Notification(...)`) are modelled as pure
  state updates; the OS notifications actually shown are recorded in the
  `shownPush` field so that the push channel's external effect is observable.
* `localStorage` persistence and the `CustomEvent` emission are outside the
  modelled state: the source catches and logs their failures, and they do not
  feed back into the in-memory collection.
-/

namespace AIcropyield

/-- The four delivery transports of `DeliveryChannel.channel` in the source:
'push' | 'sms' | 'email' | 'in-app'. -/
inductive ChannelType where
  | push
  | sms
  | email
  | inApp
deriving DecidableEq

/-- `DeliveryChannel` interface: one entry per channel a notification is
configured to use.  `deliveredAt` and `error` are optional in the source. -/
structure DeliveryChannel where
  channel : ChannelType
  enabled : Bool
  delivered : Bool
  deliveredAt : Option Int := none
  error : Option String := none
deriving DecidableEq

/-- The `Notification` interface.  The TS union types for `type`, `category`
and `priority` are modelled as strings, exactly the literals the source uses.
The opaque `data` payload, `actionUrl` and `location` fields are not part of
any verified property and are omitted. -/
structure Notification where
  ntype : String
  id : String
  category : String
  priority : String
  title : String
  message : String
  detailedMessage : Option String := none
  timestamp : Int
  expiresAt : Option Int := none
  isRead : Bool
  actionRequired : Bool
  actionText : Option String := none
  relatedCrop : Option String := none
  deliveryChannels : List DeliveryChannel
deriving DecidableEq

/-- Browser `NotificationPermission`: 'default' | 'granted' | 'denied'. -/
inductive NotificationPermission where
  | granted
  | denied
  | default_
deriving DecidableEq

/-- The state of the `NotificationService` singleton that the verified
operations touch: the in-memory `notifications` array, the cached
`notificationPermission`, and (as observable external effect) the list of ids
of OS-level notifications actually constructed by `new Notification(...)`. -/
structure NotificationService where
  notifications : List Notification
  notificationPermission : NotificationPermission
  shownPush : List String
deriving DecidableEq

/-- `sendPushNotification`: if permission is not 'granted' it returns without
doing anything; otherwise it constructs a platform notification (recorded in
`shownPush`).  Neither path throws. -/
def sendPushNotification (svc : NotificationService) (n : Notification) :
    NotificationService :=
  if svc.notificationPermission = NotificationPermission.granted then
    { svc with shownPush := n.id :: svc.shownPush }
  else
    svc

/-- `deliverThroughChannel`: the `switch` on `channel.channel` performs the
channel-specific effect ('push' calls `sendPushNotification`; 'in-app' is
handled by the UI; 'sms' and 'email' only `console.log` that they are not
implemented).  None of these branches throws, so the `try` block always falls
through to `channel.delivered = true; channel.deliveredAt = new Date()`, and
the `catch` that would set `channel.error` is unreachable.  Returns the
updated service state and the mutated channel entry. -/
def deliverThroughChannel (svc : NotificationService) (now : Int)
    (n : Notification) (c : DeliveryChannel) :
    NotificationService × DeliveryChannel :=
  let svc1 :=
    match c.channel with
    | ChannelType.push => sendPushNotification svc n
    | ChannelType.inApp => svc
    | ChannelType.sms => svc
    | ChannelType.email => svc
  (svc1, { c with delivered := true, deliveredAt := some now })

/-- The `for (const channel of notification.deliveryChannels)` loop of
`sendNotification`: attempts delivery on every channel with `enabled = true`,
threading the service state, and collects the (possibly mutated) channel
entries in order. -/
def dispatchChannels (svc : NotificationService) (now : Int)
    (n : Notification) : NotificationService × List DeliveryChannel :=
  n.deliveryChannels.foldl
    (fun (acc : NotificationService × List DeliveryChannel) c =>
      if c.enabled then
        let r := deliverThroughChannel acc.1 now n c
        (r.1, acc.2 ++ [r.2])
      else
        (acc.1, acc.2 ++ [c]))
    (svc, ([] : List DeliveryChannel))

/-- `sendNotification`: unshift the notification, truncate to 100 entries when
the cap is exceeded, then deliver through every enabled channel.  The
`DeliveryChannel` objects mutated by `deliverThroughChannel` are the very
objects held inside the stored head notification, so the updated channel list
is threaded back into the head of the stored collection. -/
def sendNotification (svc : NotificationService) (now : Int)
    (n : Notification) : NotificationService :=
  let list1 := n :: svc.notifications
  let list2 := if 100 < list1.length then list1.take 100 else list1
  let res := dispatchChannels { svc with notifications := list2 } now n
  let n1 := { n with deliveryChannels := res.2 }
  { res.1 with notifications := n1 :: list2.tail }

/-- A service that has never been granted push permission and holds nothing. -/
def svcFresh : NotificationService :=
  { notifications := []
    notificationPermission := NotificationPermission.default_
    shownPush := [] }

/-- A notification whose only configured channel is an enabled push channel. -/
def pushOnlyNotif : Notification :=
  { ntype := "general"
    id := "n1"
    category := "info"
    priority := "medium"
    title := "t"
    message := "m"
    timestamp := 0
    isRead := false
    actionRequired := false
    deliveryChannels := [⟨ChannelType.push, true, false, none, none⟩] }

/-- A notification configured with enabled sms and email channels. -/
def smsEmailNotif : Notification :=
  { ntype := "general"
    id := "n2"
    category := "info"
    priority := "medium"
    title := "t"
    message := "m"
    timestamp := 0
    isRead := false
    actionRequired := false
    deliveryChannels :=
      [⟨ChannelType.sms, true, false, none, none⟩,
       ⟨ChannelType.email, true, false, none, none⟩] }

/-- C1: dispatching a push-enabled notification while permission was never
granted shows no OS notification, yet the stored push `DeliveryChannel` entry
ends up with `delivered = true`, a `deliveredAt` stamp and no error — the
code records a delivery that did not happen, contradicting the claimed
no-op (`delivered = false`). -/
theorem push_without_permission_marked_delivered :
    (sendNotification svcFresh 7 pushOnlyNotif).shownPush = [] ∧
    (sendNotification svcFresh 7 pushOnlyNotif).notifications =
      [{ pushOnlyNotif with
          deliveryChannels := [⟨ChannelType.push, true, true, some 7, none⟩] }] := by
  constructor <;> rfl

/-- C2: dispatching a notification with enabled sms and email channels marks
both channels `delivered = true` with no error recorded, although the source
itself logs that these channels are not implemented — the attempt silently
succeeds instead of failing with a "not implemented" error. -/
theorem sms_email_marked_delivered :
    (sendNotification svcFresh 3 smsEmailNotif).notifications =
      [{ smsEmailNotif with
          deliveryChannels :=
            [⟨ChannelType.sms, true, true, some 3, none⟩,
             ⟨ChannelType.email, true, true, some 3, none⟩] }] := by
  rfl

/-- The `PriceAlert` domain event, with the fields the normalizer reads.
Prices are rounded to integers by the generator; `changePercentage` is a
decimal number (rounded to one decimal place by the generator), modelled as a
rational. -/
structure PriceAlert where
  id : String
  commodity : String
  variety : String
  currentPrice : Int
  previousPrice : Int
  change : Int
  changePercentage : Rat
  marketName : String
  recommendations : List String
deriving DecidableEq

/-- `createNotificationFromPriceAlert`: normalizes a `PriceAlert` into a
`Notification` (`new Date()` is the `now` argument).  The thresholds are the
source's: category 'alert' when `|changePercentage| > 10` else 'info',
priority 'high' when `|changePercentage| > 15` else 'medium'. -/
def createNotificationFromPriceAlert (alert : PriceAlert) (now : Int) :
    Notification :=
  let isIncrease := 0 < alert.change
  let changeText := if isIncrease then "increased" else "decreased"
  let changeTextUpper := if isIncrease then "INCREASED" else "DECREASED"
  let emoji := if isIncrease then "📈" else "📉"
  { ntype := "price"
    id := "notif_" ++ alert.id
    category := if 10 < |alert.changePercentage| then "alert" else "info"
    priority := if 15 < |alert.changePercentage| then "high" else "medium"
    title := emoji ++ " " ++ alert.commodity ++ " Price " ++ changeTextUpper
    message := alert.commodity ++ " price " ++ changeText ++ " by " ++
      toString |alert.changePercentage| ++ "% to ₹" ++ toString alert.currentPrice
    detailedMessage := some ("Market: " ++ alert.marketName ++
      "\nCurrent Price: ₹" ++ toString alert.currentPrice ++
      "\nPrevious Price: ₹" ++ toString alert.previousPrice ++
      "\nChange: ₹" ++ toString alert.change ++ " (" ++
      toString alert.changePercentage ++ "%)\n\nRecommendations:\n" ++
      String.intercalate "\n" alert.recommendations)
    timestamp := now
    isRead := false
    actionRequired := true
    actionText := some "View Markets"
    relatedCrop := some alert.commodity
    deliveryChannels :=
      [⟨ChannelType.push, true, false, none, none⟩,
       ⟨ChannelType.inApp, true, false, none, none⟩] }

/-- A concrete price alert whose `changePercentage` is exactly 12. -/
def alertTwelve : PriceAlert :=
  { id := "p1"
    commodity := "Rice"
    variety := "Standard"
    currentPrice := 2240
    previousPrice := 2000
    change := 240
    changePercentage := 12
    marketName := "Local Mandi"
    recommendations := [] }

/-- The filter object of `getNotifications`: all four fields are optional. -/
structure NotificationFilters where
  ntype : Option String := none
  category : Option String := none
  isRead : Option Bool := none
  limit : Option Nat := none
deriving DecidableEq

/-- The empty filter object (every field `undefined`). -/
def noFilters : NotificationFilters := {}

/-- `getNotifications`: starts from a fresh shallow copy of the collection and
applies the filters in order.  The `type`, `category` and `limit` guards are
JS truthiness tests (`if (filters?.type)` …), so an empty string or a limit
of 0 is skipped; the `isRead` guard is `!== undefined`, so `false` is
honored.  `userId` is accepted and ignored, as in the source. -/
def getNotifications (svc : NotificationService) (userId : String)
    (filters : NotificationFilters) : List Notification :=
  let filtered := svc.notifications
  let filtered :=
    match filters.ntype with
    | some t => if t = "" then filtered else filtered.filter (fun n => n.ntype == t)
    | none => filtered
  let filtered :=
    match filters.category with
    | some c => if c = "" then filtered else filtered.filter (fun n => n.category == c)
    | none => filtered
  let filtered :=
    match filters.isRead with
    | some b => filtered.filter (fun n => n.isRead == b)
    | none => filtered
  match filters.limit with
  | some k => if k = 0 then filtered else filtered.take k
  | none => filtered

/-- `markAsRead` mutates the first record `find` returns; this helper sets
`isRead := true` on the first record with the given id, if any. -/
def markFirstRead : List Notification → String → List Notification
  | [], _ => []
  | n :: rest, nid =>
      if n.id = nid then { n with isRead := true } :: rest
      else n :: markFirstRead rest nid

/-- `markAsRead(notificationId)`: finds the matching record and sets
`isRead = true`; a miss is a no-op. -/
def markAsRead (svc : NotificationService) (notificationId : String) :
    NotificationService :=
  { svc with notifications := markFirstRead svc.notifications notificationId }

/-- `markAllAsRead(userId)`: sets `isRead = true` on every record currently
held; the `userId` argument is ignored by the source. -/
def markAllAsRead (svc : NotificationService) (userId : String) :
    NotificationService :=
  { svc with
      notifications := svc.notifications.map (fun n => { n with isRead := true }) }

/-- `deleteNotification(notificationId)`: keeps every record whose id
differs. -/
def deleteNotification (svc : NotificationService) (notificationId : String) :
    NotificationService :=
  { svc with
      notifications := svc.notifications.filter (fun n => n.id != notificationId) }

/-- `getUnreadCount(userId)`: counts records with `isRead = false`; `userId`
is ignored by the source. -/
def getUnreadCount (svc : NotificationService) (userId : String) : Nat :=
  (svc.notifications.filter (fun n => !n.isRead)).length

/-- `cleanup()`: keeps exactly the records with no `expiresAt` or with
`expiresAt > now` (strict). -/
def cleanup (svc : NotificationService) (now : Int) : NotificationService :=
  { svc with
      notifications := svc.notifications.filter (fun n =>
        match n.expiresAt with
        | none => true
        | some t => now < t) }

/-- The scalar fields of `NotificationAnalytics` that the verified claims are
about; the rates are exact rationals.  The `byType`/`byPriority` groupings and
the `engagement` block are not needed by any claim and are omitted. -/
structure AnalyticsSummary where
  totalSent : Nat
  totalDelivered : Nat
  totalRead : Nat
  totalClicked : Nat
  deliveryRate : Rat
  readRate : Rat
  clickRate : Rat
deriving DecidableEq

/-- `getNotificationAnalytics(userId, timeframe)`: the source first turns the
timeframe into a window start instant (now minus 1 day / 7 days / 1 calendar
month) and then filters on `n.timestamp >= startDate`; the embedding takes the
computed `startDate` directly, covering every timeframe.  `userId` is ignored
by the source. -/
def getNotificationAnalytics (svc : NotificationService) (userId : String)
    (startDate : Int) : AnalyticsSummary :=
  let relevantNotifications :=
    svc.notifications.filter (fun n => startDate ≤ n.timestamp)
  let totalSent := relevantNotifications.length
  let totalDelivered :=
    (relevantNotifications.filter (fun n =>
      n.deliveryChannels.any (fun c => c.delivered))).length
  let totalRead := (relevantNotifications.filter (fun n => n.isRead)).length
  { totalSent := totalSent
    totalDelivered := totalDelivered
    totalRead := totalRead
    totalClicked := 0
    deliveryRate :=
      if 0 < totalSent then ((totalDelivered : Rat) / (totalSent : Rat)) * 100
      else 0
    readRate :=
      if 0 < totalDelivered then ((totalRead : Rat) / (totalDelivered : Rat)) * 100
      else 0
    clickRate := 0 }

/-- C3: starting from a store holding at most 100 notifications,
`sendNotification` leaves at most 100, the new notification (with its
delivery-channel entries updated by dispatch) sits at the head, and the
entries dropped are exactly the oldest ones: the store becomes the new head
followed by the newest 99 of the previous entries. -/
theorem sendNotification_capacity (svc : NotificationService) (now : Int)
    (n : Notification) (h : svc.notifications.length ≤ 100) :
    (sendNotification svc now n).notifications.length ≤ 100 ∧
    ∃ chans, (sendNotification svc now n).notifications =
      { n with deliveryChannels := chans } :: svc.notifications.take 99 := by
  have htail : (if 100 < (n :: svc.notifications).length
      then (n :: svc.notifications).take 100
      else n :: svc.notifications).tail = svc.notifications.take 99 := by
    by_cases hc : 100 < (n :: svc.notifications).length
    · rw [if_pos hc, List.take_succ_cons]
      rfl
    · rw [if_neg hc]
      have h99 : svc.notifications.length ≤ 99 := by
        simp only [List.length_cons] at hc
        omega
      simp [List.take_of_length_le h99]
  have hdef : (sendNotification svc now n).notifications =
      { n with deliveryChannels := (dispatchChannels { svc with notifications :=
          (if 100 < (n :: svc.notifications).length
            then (n :: svc.notifications).take 100
            else n :: svc.notifications) } now n).2 } ::
        (if 100 < (n :: svc.notifications).length
          then (n :: svc.notifications).take 100
          else n :: svc.notifications).tail := rfl
  constructor
  · rw [hdef, htail]
    have hmin : min 99 svc.notifications.length ≤ 99 := min_le_left _ _
    simp only [List.length_cons, List.length_take]
    omega
  · exact ⟨_, by rw [hdef, htail]⟩

/-- C3 witness: instantiated at the empty fresh service. -/
theorem sendNotification_capacity_witness :
    (sendNotification svcFresh 7 pushOnlyNotif).notifications.length ≤ 100 ∧
    ∃ chans, (sendNotification svcFresh 7 pushOnlyNotif).notifications =
      { pushOnlyNotif with deliveryChannels := chans } ::
        svcFresh.notifications.take 99 :=
  sendNotification_capacity svcFresh 7 pushOnlyNotif (by decide)

/-- C4: the normalized notification of a price alert has category "alert"
exactly when `|changePercentage| > 10` (else "info") and priority "high"
exactly when `|changePercentage| > 15` (else "medium"); at the concrete
`changePercentage = 12` the result is category "alert", priority "medium". -/
theorem priceAlert_category_priority (alert : PriceAlert) (now : Int) :
    ((createNotificationFromPriceAlert alert now).category = "alert" ↔
      10 < |alert.changePercentage|) ∧
    ((createNotificationFromPriceAlert alert now).category = "info" ↔
      ¬ 10 < |alert.changePercentage|) ∧
    ((createNotificationFromPriceAlert alert now).priority = "high" ↔
      15 < |alert.changePercentage|) ∧
    ((createNotificationFromPriceAlert alert now).priority = "medium" ↔
      ¬ 15 < |alert.changePercentage|) ∧
    (createNotificationFromPriceAlert alertTwelve now).category = "alert" ∧
    (createNotificationFromPriceAlert alertTwelve now).priority = "medium" := by
  have h12 : |(12 : Rat)| = 12 := abs_of_nonneg (by norm_num)
  refine ⟨?_, ?_, ?_, ?_, ?_, ?_⟩ <;>
    simp only [createNotificationFromPriceAlert, alertTwelve]
  · by_cases hc : 10 < |alert.changePercentage| <;> simp [hc]
  · by_cases hc : 10 < |alert.changePercentage| <;> simp [hc]
  · by_cases hc : 15 < |alert.changePercentage| <;> simp [hc]
  · by_cases hc : 15 < |alert.changePercentage| <;> simp [hc]
  · have hgt : (10 : Rat) < |(12 : Rat)| := by
      rw [h12]
      norm_num
    rw [if_pos hgt]
  · have hle : ¬ (15 : Rat) < |(12 : Rat)| := by
      rw [h12]
      norm_num
    rw [if_neg hle]

/-- C5: for every user id and window start, the analytics counts are the
number of notifications in the window, the number among them with at least
one delivered channel, and the number read; the rates are the stated ratios
times 100, with 0 in the empty-denominator cases. -/
theorem analytics_definitions (svc : NotificationService) (userId : String)
    (startDate : Int) :
    (getNotificationAnalytics svc userId startDate).totalSent =
      (svc.notifications.filter (fun n => startDate ≤ n.timestamp)).length ∧
    (getNotificationAnalytics svc userId startDate).totalDelivered =
      ((svc.notifications.filter (fun n => startDate ≤ n.timestamp)).filter
        (fun n => decide (∃ c ∈ n.deliveryChannels, c.delivered = true))).length ∧
    (getNotificationAnalytics svc userId startDate).totalRead =
      ((svc.notifications.filter (fun n => startDate ≤ n.timestamp)).filter
        (fun n => n.isRead)).length ∧
    (getNotificationAnalytics svc userId startDate).deliveryRate =
      (if (getNotificationAnalytics svc userId startDate).totalSent = 0 then 0
       else ((getNotificationAnalytics svc userId startDate).totalDelivered : Rat) /
         ((getNotificationAnalytics svc userId startDate).totalSent : Rat) * 100) ∧
    (getNotificationAnalytics svc userId startDate).readRate =
      (if (getNotificationAnalytics svc userId startDate).totalDelivered = 0 then 0
       else ((getNotificationAnalytics svc userId startDate).totalRead : Rat) /
         ((getNotificationAnalytics svc userId startDate).totalDelivered : Rat) * 100) := by
  have hpred : ∀ (n : Notification),
      (n.deliveryChannels.any (fun c => c.delivered)) =
        decide (∃ c ∈ n.deliveryChannels, c.delivered = true) := by
    intro n
    rw [← Bool.coe_iff_coe]
    simp [List.any_eq_true]
  have hdel : (getNotificationAnalytics svc userId startDate).totalDelivered =
      ((svc.notifications.filter (fun n => startDate ≤ n.timestamp)).filter
        (fun n => decide (∃ c ∈ n.deliveryChannels, c.delivered = true))).length := by
    show ((svc.notifications.filter (fun n => startDate ≤ n.timestamp)).filter
        (fun n => n.deliveryChannels.any (fun c => c.delivered))).length = _
    rw [List.filter_congr (fun a _ => hpred a)]
  have hsent : (getNotificationAnalytics svc userId startDate).totalSent =
      (svc.notifications.filter (fun n => startDate ≤ n.timestamp)).length := rfl
  have hdrate : (getNotificationAnalytics svc userId startDate).deliveryRate =
      (if 0 < (getNotificationAnalytics svc userId startDate).totalSent
       then ((getNotificationAnalytics svc userId startDate).totalDelivered : Rat) /
         ((getNotificationAnalytics svc userId startDate).totalSent : Rat) * 100
       else 0) := rfl
  have hrrate : (getNotificationAnalytics svc userId startDate).readRate =
      (if 0 < (getNotificationAnalytics svc userId startDate).totalDelivered
       then ((getNotificationAnalytics svc userId startDate).totalRead : Rat) /
         ((getNotificationAnalytics svc userId startDate).totalDelivered : Rat) * 100
       else 0) := rfl
  refine ⟨hsent, hdel, rfl, ?_, ?_⟩
  · rcases Nat.eq_zero_or_pos (getNotificationAnalytics svc userId startDate).totalSent
      with h0 | hpos
    · rw [hdrate, if_neg (by omega), if_pos h0]
    · rw [hdrate, if_pos hpos, if_neg (by omega)]
  · rcases Nat.eq_zero_or_pos (getNotificationAnalytics svc userId startDate).totalDelivered
      with h0 | hpos
    · rw [hrrate, if_neg (by omega), if_pos h0]
    · rw [hrrate, if_pos hpos, if_neg (by omega)]

/-- C6: `markAllAsRead` sets `isRead = true` on every record in the store,
ignoring the user id, and afterwards `getUnreadCount` is 0 for every user. -/
theorem markAllAsRead_ignores_user (svc : NotificationService) (u u' : String) :
    (markAllAsRead svc u).notifications =
      svc.notifications.map (fun n => { n with isRead := true }) ∧
    getUnreadCount (markAllAsRead svc u) u' = 0 := by
  refine ⟨rfl, ?_⟩
  show ((svc.notifications.map
      (fun n => ({ n with isRead := true } : Notification))).filter
    (fun n => !n.isRead)).length = 0
  induction svc.notifications with
  | nil => rfl
  | cons n rest ih => simp [ih]

/-- A notification that expired at instant 5. -/
def expiredNotif : Notification :=
  { ntype := "government"
    id := "g1"
    category := "update"
    priority := "medium"
    title := "t"
    message := "m"
    timestamp := 0
    expiresAt := some 5
    isRead := false
    actionRequired := true
    deliveryChannels := [] }

/-- A service holding only the expired notification. -/
def svcExpired : NotificationService :=
  { notifications := [expiredNotif]
    notificationPermission := NotificationPermission.default_
    shownPush := [] }

/-- C7: a notification whose `expiresAt` lies in the past is still returned
by an unfiltered query before `cleanup` runs; after `cleanup` the store holds
exactly the records with no `expiresAt` or with `expiresAt` strictly after
the current time — in particular the expired record is gone. -/
theorem expired_visible_until_cleanup (svc : NotificationService) (now : Int)
    (u : String) (n : Notification) (t : Int)
    (hmem : n ∈ svc.notifications) (hexp : n.expiresAt = some t)
    (hpast : t < now) :
    n ∈ getNotifications svc u noFilters ∧
    n ∉ (cleanup svc now).notifications ∧
    (∀ m, m ∈ (cleanup svc now).notifications ↔
      m ∈ svc.notifications ∧
        (m.expiresAt = none ∨ ∃ s, m.expiresAt = some s ∧ now < s)) := by
  have hpred : ∀ (m : Notification),
      ((match m.expiresAt with
        | none => true
        | some s => decide (now < s)) = true) ↔
      (m.expiresAt = none ∨ ∃ s, m.expiresAt = some s ∧ now < s) := by
    intro m
    cases hm : m.expiresAt with
    | none => simp
    | some s => simp
  have hclean : ∀ m, m ∈ (cleanup svc now).notifications ↔
      m ∈ svc.notifications ∧
        (m.expiresAt = none ∨ ∃ s, m.expiresAt = some s ∧ now < s) := by
    intro m
    show m ∈ svc.notifications.filter _ ↔ _
    rw [List.mem_filter]
    exact and_congr_right (fun _ => hpred m)
  refine ⟨hmem, ?_, hclean⟩
  intro hcontra
  rcases ((hclean n).mp hcontra).2 with h0 | ⟨s, hs, hlt⟩
  · rw [hexp] at h0
    cases h0
  · rw [hexp] at hs
    injection hs with hst
    omega

/-- C7 witness: instantiated at the concrete expired store at time 10. -/
theorem expired_visible_until_cleanup_witness :
    expiredNotif ∈ getNotifications svcExpired "u" noFilters ∧
    expiredNotif ∉ (cleanup svcExpired 10).notifications ∧
    (∀ m, m ∈ (cleanup svcExpired 10).notifications ↔
      m ∈ svcExpired.notifications ∧
        (m.expiresAt = none ∨ ∃ s, m.expiresAt = some s ∧ (10 : Int) < s)) :=
  expired_visible_until_cleanup svcExpired 10 "u" expiredNotif 5
    (by decide) rfl (by decide)

/-- Applying `markFirstRead` twice with the same id is the same as once. -/
theorem markFirstRead_idem (l : List Notification) (nid : String) :
    markFirstRead (markFirstRead l nid) nid = markFirstRead l nid := by
  induction l with
  | nil => rfl
  | cons n rest ih =>
    by_cases h : n.id = nid
    · simp [markFirstRead, h]
    · simp [markFirstRead, h, ih]

/-- C8: `markAsRead` is idempotent, and `deleteNotification` on an id absent
from the store leaves the service unchanged (the operation is total: it
raises no error). -/
theorem markRead_delete_idempotent (svc : NotificationService)
    (id1 id2 : String) (habs : ∀ n ∈ svc.notifications, n.id ≠ id2) :
    markAsRead (markAsRead svc id1) id1 = markAsRead svc id1 ∧
    deleteNotification svc id2 = svc := by
  constructor
  · show ({ svc with notifications :=
        markFirstRead (markFirstRead svc.notifications id1) id1 } :
          NotificationService) =
      { svc with notifications := markFirstRead svc.notifications id1 }
    rw [markFirstRead_idem]
  · show ({ svc with notifications :=
        svc.notifications.filter (fun n => n.id != id2) } :
          NotificationService) = svc
    have hall : svc.notifications.filter (fun n => n.id != id2) =
        svc.notifications := by
      apply List.filter_eq_self.mpr
      intro a ha
      simpa using habs a ha
    rw [hall]

/-- A service holding exactly one notification, with id "n1". -/
def svcOne : NotificationService :=
  { notifications := [pushOnlyNotif]
    notificationPermission := NotificationPermission.default_
    shownPush := [] }

/-- C8 witness: instantiated at a one-element store; "zzz" is absent. -/
theorem markRead_delete_idempotent_witness :
    markAsRead (markAsRead svcOne "n1") "n1" = markAsRead svcOne "n1" ∧
    deleteNotification svcOne "zzz" = svcOne :=
  markRead_delete_idempotent svcOne "n1" "zzz" (by decide)

/-- C10: a `limit` filter of 0 is falsy in the source's truthiness guard and
is ignored (the result equals the query without a limit, not the empty list),
while an `isRead` filter of `false` passes the `!== undefined` guard and is
honored: with no other filters the query returns exactly the unread
records. -/
theorem limit_zero_ignored_isRead_honored (svc : NotificationService)
    (u : String) (t c : Option String) (ir : Option Bool) :
    getNotifications svc u ⟨t, c, ir, some 0⟩ =
      getNotifications svc u ⟨t, c, ir, none⟩ ∧
    getNotifications svc u ⟨none, none, some false, some 0⟩ =
      svc.notifications.filter (fun n => !n.isRead) := by
  constructor
  · rfl
  · show svc.notifications.filter (fun n => n.isRead == false) =
      svc.notifications.filter (fun n => !n.isRead)
    apply List.filter_congr
    intro a _
    cases a.isRead <;> rfl

/-!
Reference-level model of the store for the aliasing question: in JS the
`Notification` records are heap objects and `this.notifications` is an array
of references to them.  `getNotifications` copies the ARRAY
(`[...this.notifications]`) but not the records, so the returned list holds
references to the store's own records.  `StoreRefs` makes this explicit: the
`heap` holds the records, addressed by position, and `order` is the
`this.notifications` array of references. -/

/-- Placeholder record for out-of-range heap reads (never reached on valid
references). -/
def emptyNotification : Notification :=
  { ntype := ""
    id := ""
    category := ""
    priority := ""
    title := ""
    message := ""
    timestamp := 0
    isRead := false
    actionRequired := false
    deliveryChannels := [] }

/-- The store at the reference level: records live in `heap`; `order` is the
`this.notifications` array of references into it. -/
structure StoreRefs where
  heap : List Notification
  order : List Nat
deriving DecidableEq

/-- Dereference: read the record a reference points to. -/
def refGet (s : StoreRefs) (a : Nat) : Notification :=
  s.heap.getD a emptyNotification

/-- The store's internal notification collection as the records it holds, in
order — what every read operation of the service observes. -/
def viewStore (s : StoreRefs) : List Notification :=
  s.order.map (refGet s)

/-- One `if (filters?.type)` / `if (filters?.category)` guard of the query at
the reference level: a truthy string filter keeps the references whose record
has the projected field equal to it. -/
def filterRefsByStr (p : Notification → String) (s : StoreRefs)
    (o : Option String) (l : List Nat) : List Nat :=
  match o with
  | some t => if t = "" then l else l.filter (fun a => p (refGet s a) == t)
  | none => l

/-- The `if (filters?.isRead !== undefined)` guard at the reference level. -/
def filterRefsByRead (s : StoreRefs) (o : Option Bool) (l : List Nat) :
    List Nat :=
  match o with
  | some b => l.filter (fun a => (refGet s a).isRead == b)
  | none => l

/-- The `if (filters?.limit)` guard at the reference level. -/
def limitRefs (o : Option Nat) (l : List Nat) : List Nat :=
  match o with
  | some k => if k = 0 then l else l.take k
  | none => l

/-- `getNotifications` at the reference level: `[...this.notifications]` is a
fresh array, but its elements are the store's own record references; the
filter predicates dereference them.  The four guards are applied in the
source's order. -/
def getNotificationRefs (s : StoreRefs) (userId : String)
    (filters : NotificationFilters) : List Nat :=
  let filtered := s.order
  let filtered := filterRefsByStr Notification.ntype s filters.ntype filtered
  let filtered := filterRefsByStr Notification.category s filters.category filtered
  let filtered := filterRefsByRead s filters.isRead filtered
  limitRefs filters.limit filtered

/-- Writing `record.isRead = b` through a reference, as a caller holding the
returned list can do: the heap cell is updated in place. -/
def setIsReadAt (s : StoreRefs) (a : Nat) (b : Bool) : StoreRefs :=
  { s with heap := s.heap.set a { refGet s a with isRead := b } }

/-- A store holding one unread notification at address 0. -/
def storeOne : StoreRefs :=
  { heap := [pushOnlyNotif]
    order := [0] }

/-- C9 counterexample: the unfiltered query on `storeOne` returns the store's
own record reference, and setting `isRead` through that returned reference
changes the store's internal notification collection — the records are not
copies. -/
theorem query_mutation_reaches_store :
    getNotificationRefs storeOne "u" noFilters = [0] ∧
    viewStore (setIsReadAt storeOne 0 true) ≠ viewStore storeOne := by
  constructor
  · rfl
  · decide

/-- A truthy string guard only ever shrinks the reference list. -/
theorem filterRefsByStr_sublist (p : Notification → String) (s : StoreRefs)
    (o : Option String) (l : List Nat) :
    (filterRefsByStr p s o l).Sublist l := by
  cases o with
  | none => exact List.Sublist.refl l
  | some t =>
    show (if t = "" then l else l.filter (fun a => p (refGet s a) == t)).Sublist l
    by_cases h : t = ""
    · rw [if_pos h]
    · rw [if_neg h]
      exact List.filter_sublist l

/-- The `isRead` guard only ever shrinks the reference list. -/
theorem filterRefsByRead_sublist (s : StoreRefs) (o : Option Bool)
    (l : List Nat) : (filterRefsByRead s o l).Sublist l := by
  cases o with
  | none => exact List.Sublist.refl l
  | some b => exact List.filter_sublist l

/-- The `limit` guard only ever shrinks the reference list. -/
theorem limitRefs_sublist (o : Option Nat) (l : List Nat) :
    (limitRefs o l).Sublist l := by
  cases o with
  | none => exact List.Sublist.refl l
  | some k =>
    show (if k = 0 then l else l.take k).Sublist l
    by_cases h : k = 0
    · rw [if_pos h]
    · rw [if_neg h]
      exact List.take_sublist k l

/-- The reference list a query returns shrinks `s.order` only. -/
theorem getNotificationRefs_sublist (s : StoreRefs) (u : String)
    (f : NotificationFilters) : (getNotificationRefs s u f).Sublist s.order :=
  (limitRefs_sublist f.limit _).trans
    ((filterRefsByRead_sublist s f.isRead _).trans
      ((filterRefsByStr_sublist Notification.category s f.category _).trans
        (filterRefsByStr_sublist Notification.ntype s f.ntype s.order)))

/-- `List.getD` after `List.set` at the written index. -/
theorem getD_set_self {α : Type} : ∀ (l : List α) (a : Nat) (x d : α),
    a < l.length → (l.set a x).getD a d = x
  | [], a, x, d, h => absurd h (by simp)
  | _ :: _, 0, _, _, _ => rfl
  | _ :: l, a + 1, x, d, h => getD_set_self l a x d (by simpa using h)

/-- `List.getD` after `List.set` at a different index. -/
theorem getD_set_ne {α : Type} : ∀ (l : List α) (a r : Nat), r ≠ a →
    ∀ (x d : α), (l.set a x).getD r d = l.getD r d
  | [], _, _, _, _, _ => rfl
  | _ :: _, 0, 0, h, _, _ => absurd rfl h
  | _ :: _, 0, _ + 1, _, _, _ => rfl
  | _ :: _, _ + 1, 0, _, _, _ => rfl
  | _ :: l, a + 1, r + 1, h, x, d => getD_set_ne l a r (by omega) x d

/-- C9 amended: the query result is a fresh list, but its elements are the
store's own record references (each one occurs in `s.order`), and writing
`isRead` through a returned reference is visible in the store's internal
collection: every position of the store whose reference equals the written
one now shows the updated record. -/
theorem query_refs_shared_with_store (s : StoreRefs) (u : String)
    (f : NotificationFilters) (a : Nat) (b : Bool)
    (ha : a ∈ getNotificationRefs s u f) (hlt : a < s.heap.length) :
    a ∈ s.order ∧
    viewStore (setIsReadAt s a b) = s.order.map (fun r =>
      if r = a then { refGet s r with isRead := b } else refGet s r) := by
  constructor
  · exact (getNotificationRefs_sublist s u f).subset ha
  · show s.order.map (refGet (setIsReadAt s a b)) = _
    apply List.map_congr_left
    intro r _
    by_cases hr : r = a
    · subst hr
      show (s.heap.set r { refGet s r with isRead := b }).getD r
        emptyNotification = _
      rw [getD_set_self s.heap r _ emptyNotification hlt, if_pos rfl]
    · show (s.heap.set a { refGet s a with isRead := b }).getD r
        emptyNotification = _
      rw [getD_set_ne s.heap a r hr _ emptyNotification, if_neg hr]
      rfl

/-- C9 amended witness: instantiated at the one-record store, writing through
the reference the unfiltered query returned. -/
theorem query_refs_shared_with_store_witness :
    0 ∈ storeOne.order ∧
    viewStore (setIsReadAt storeOne 0 true) = storeOne.order.map (fun r =>
      if r = 0 then { refGet storeOne r with isRead := true }
      else refGet storeOne r) :=
  query_refs_shared_with_store storeOne "u" noFilters 0 true
    (by decide) (by decide)

end AIcropyield
